import Mathlib

/-!
Verification of the ctaeb compile-time algebraic expression library
(include/ctaeb/expression.h, operations.h, print.h).

The C++ library is duck-typed: expressions are templates that may be
evaluated at any argument types for which the participating operations
compile.  The embedding fixes the value universe to the three semantic
types actually exercised by the library's documentation and examples --
int, bool, and std::string -- and models a C++ "fails to build" outcome
(a template instantiation error at the evaluation call site) as `none`
of an `Option` result.  Integer promotion of `bool` operands, which the
C++ built-in operators perform, is modelled by `asInt`.
-/

namespace ctaeb

/-- The value universe of the embedding: the instantiations of the
expression templates used by the library's documented scenarios. -/
inductive Val where
  | vint  (n : Int)
  | vbool (b : Bool)
  | vstr  (s : String)
  deriving Repr, DecidableEq

/-- Operation tags.  One tag per functional-object template that the
library wires into `Compound` nodes: the std functors registered in
operations.h / print.h, plus the user-defined prefixed `CustomOperator`
(a conditional operator) from example/prefixed_operator.cc, which
demonstrates the custom-operation extension point. -/
inductive Op where
  | plus | minus | multiplies | divides
  | equal_to | not_equal_to | less | less_equal | greater | greater_equal
  | logical_and | logical_or | logical_not | negate
  | customOp
  deriving Repr, DecidableEq

/-- Contextual conversion of a value to `bool`, as used by
`if (!res1)` / `if (res1)` in the `Invoker` specializations for
std::logical_and / std::logical_or.  An int converts via comparison
with zero; a std::string has no conversion to bool, so the
instantiation fails to build (`none`). -/
def truthyOf : Val → Option Bool
  | .vint n  => some (n != 0)
  | .vbool b => some b
  | .vstr _  => none

/-- Usual arithmetic conversions to int, as the C++ built-in arithmetic
and comparison operators perform on int/bool operands; a std::string
does not convert (`none`). -/
def asInt : Val → Option Int
  | .vint n  => some n
  | .vbool b => some (if b then 1 else 0)
  | .vstr _  => none

/-- Whether two values have the same semantic type.  `CustomOperator`
deduces one template parameter `T` from both of its data operands, so
its instantiation requires both to have the same type. -/
def sameKind : Val → Val → Bool
  | .vint _,  .vint _  => true
  | .vbool _, .vbool _ => true
  | .vstr _,  .vstr _  => true
  | _, _ => false

/-- Applies the executable semantics of an operation tag to already
evaluated operand values: the body of the respective functional object
(std::plus through std::negate per their transparent `void`
specializations, and CustomOperator from the example).  `none` models
an instantiation that fails to build: wrong operand count for the
functional object's call operator, or operand types the body does not
compile for.  std::logical_and / std::logical_or never reach this
function, because their `Invoker` specializations evaluate lazily;
integer division by zero is undefined behaviour in C++ and is likewise
modelled as failure. -/
def applyOp : Op → List Val → Option Val
  | .plus, [.vstr s1, .vstr s2] => some (.vstr (s1 ++ s2))
  | .plus, [a, b] =>
      match asInt a, asInt b with
      | some x, some y => some (.vint (x + y))
      | _, _ => none
  | .minus, [a, b] =>
      match asInt a, asInt b with
      | some x, some y => some (.vint (x - y))
      | _, _ => none
  | .multiplies, [a, b] =>
      match asInt a, asInt b with
      | some x, some y => some (.vint (x * y))
      | _, _ => none
  | .divides, [a, b] =>
      match asInt a, asInt b with
      | some x, some y => if y == 0 then none else some (.vint (Int.tdiv x y))
      | _, _ => none
  | .equal_to, [.vstr s1, .vstr s2] => some (.vbool (s1 == s2))
  | .equal_to, [a, b] =>
      match asInt a, asInt b with
      | some x, some y => some (.vbool (x == y))
      | _, _ => none
  | .not_equal_to, [.vstr s1, .vstr s2] => some (.vbool (s1 != s2))
  | .not_equal_to, [a, b] =>
      match asInt a, asInt b with
      | some x, some y => some (.vbool (x != y))
      | _, _ => none
  | .less, [.vstr s1, .vstr s2] => some (.vbool (decide (s1 < s2)))
  | .less, [a, b] =>
      match asInt a, asInt b with
      | some x, some y => some (.vbool (decide (x < y)))
      | _, _ => none
  | .less_equal, [.vstr s1, .vstr s2] => some (.vbool (decide (s1 ≤ s2)))
  | .less_equal, [a, b] =>
      match asInt a, asInt b with
      | some x, some y => some (.vbool (decide (x ≤ y)))
      | _, _ => none
  | .greater, [.vstr s1, .vstr s2] => some (.vbool (decide (s2 < s1)))
  | .greater, [a, b] =>
      match asInt a, asInt b with
      | some x, some y => some (.vbool (decide (y < x)))
      | _, _ => none
  | .greater_equal, [.vstr s1, .vstr s2] => some (.vbool (decide (s2 ≤ s1)))
  | .greater_equal, [a, b] =>
      match asInt a, asInt b with
      | some x, some y => some (.vbool (decide (y ≤ x)))
      | _, _ => none
  | .logical_not, [a] =>
      match truthyOf a with
      | some b => some (.vbool (!b))
      | none => none
  | .negate, [a] =>
      match asInt a with
      | some x => some (.vint (-x))
      | none => none
  | .customOp, [c, s1, s2] =>
      match truthyOf c with
      | some b => if sameKind s1 s2 then some (if b then s1 else s2) else none
      | none => none
  | _, _ => none

/-- Expression trees.  `const` embeds `Constant<T>` (an immutable held
value), `var` embeds `Variable<N>` (a positional index plus a display
name), and `compound` embeds `Compound<Op, Nested...>` (an operation
tag plus the tuple of nested sub-expressions). -/
inductive Expr where
  | const (v : Val)
  | var (n : Nat) (name : String)
  | compound (op : Op) (children : List Expr)

mutual

/-- Evaluation of an expression at a positional argument list, the
composition of `Constant::operator()` (returns the held value),
`Variable::operator()` (std::get of entry N-1 of the forwarded
argument tuple; out-of-range does not compile, modelled by `none`; the
index arithmetic is on size_t, so index 0 wraps around and never
compiles), and `Compound::operator()`, which defers to
`detail::Invoker<Op>`.  The `Invoker` specializations for
std::logical_and and std::logical_or accept exactly two nested
expressions, evaluate the first, return the literal `false` / `true`
when contextual conversion decides the result, and otherwise combine
both sub-results through the functional object; any other operation
goes through the common-case `Invoker`, which evaluates every nested
expression with the same arguments and feeds the results to the
operation. -/
def eval : Expr → List Val → Option Val
  | .const v, _ => some v
  | .var n _, A => if n = 0 then none else A[n - 1]?
  | .compound .logical_and [c1, c2], A =>
      match eval c1 A with
      | none => none
      | some r1 =>
        match truthyOf r1 with
        | none => none
        | some b1 =>
          if !b1 then some (.vbool false)
          else
            match eval c2 A with
            | none => none
            | some r2 =>
              match truthyOf r2 with
              | none => none
              | some b2 => some (.vbool (b1 && b2))
  | .compound .logical_and _, _ => none
  | .compound .logical_or [c1, c2], A =>
      match eval c1 A with
      | none => none
      | some r1 =>
        match truthyOf r1 with
        | none => none
        | some b1 =>
          if b1 then some (.vbool true)
          else
            match eval c2 A with
            | none => none
            | some r2 =>
              match truthyOf r2 with
              | none => none
              | some b2 => some (.vbool (b1 || b2))
  | .compound .logical_or _, _ => none
  | .compound op cs, A =>
      match evalList cs A with
      | some rs => applyOp op rs
      | none => none

/-- Evaluation of a tuple of nested expressions, each with the same
argument list, collecting the sub-results for the operation. -/
def evalList : List Expr → List Val → Option (List Val)
  | [], _ => some []
  | c :: cs, A =>
      match eval c A, evalList cs A with
      | some r, some rs => some (r :: rs)
      | _, _ => none

end

mutual

/-- Instrumentation of `eval` for the observability of short-circuit
evaluation: records, in evaluation order, every node whose evaluation
is started on the executed path.  The branch structure mirrors `eval`
statement by statement.  The two short-circuit `Invoker`
specializations are fully sequenced by their source (first nested
expression, the test, then possibly the second); the common-case
`Invoker` instead expands all nested evaluations inside one
function-call argument list, whose relative order C++ leaves
unspecified, so for that case the trace lists the children in tuple
order as one determinization. -/
def trace : Expr → List Val → List Expr
  | .const v, _ => [.const v]
  | .var n s, _ => [.var n s]
  | .compound .logical_and [c1, c2], A =>
      .compound .logical_and [c1, c2] ::
        (match eval c1 A with
         | none => trace c1 A
         | some r1 =>
           match truthyOf r1 with
           | none => trace c1 A
           | some b1 => if !b1 then trace c1 A else trace c1 A ++ trace c2 A)
  | .compound .logical_and cs, _ => [.compound .logical_and cs]
  | .compound .logical_or [c1, c2], A =>
      .compound .logical_or [c1, c2] ::
        (match eval c1 A with
         | none => trace c1 A
         | some r1 =>
           match truthyOf r1 with
           | none => trace c1 A
           | some b1 => if b1 then trace c1 A else trace c1 A ++ trace c2 A)
  | .compound .logical_or cs, _ => [.compound .logical_or cs]
  | .compound op cs, A => .compound op cs :: traceList cs A

/-- Trace of the children of a common-case compound, in tuple order. -/
def traceList : List Expr → List Val → List Expr
  | [], _ => []
  | c :: cs, A => trace c A ++ traceList cs A

end

mutual

/-- State-passing form of evaluation.  `Compound::operator()` and the
`Invoker` call operators are const-qualified and every expression
object owns its sub-expressions by value, so an evaluation call can at
most replace the expression object it runs on; this definition threads
the expression through the call and returns it next to the result,
rebuilding each node from the (possibly replaced) children the way the
recursive calls return them.  That no call actually replaces anything
is proved below, not assumed here. -/
def evalState : Expr → List Val → Option Val × Expr
  | .const v, _ => (some v, .const v)
  | .var n s, A => ((if n = 0 then none else A[n - 1]?), .var n s)
  | .compound .logical_and [c1, c2], A =>
      match evalState c1 A with
      | (none, c1') => (none, .compound .logical_and [c1', c2])
      | (some r1, c1') =>
        match truthyOf r1 with
        | none => (none, .compound .logical_and [c1', c2])
        | some b1 =>
          if !b1 then (some (.vbool false), .compound .logical_and [c1', c2])
          else
            match evalState c2 A with
            | (none, c2') => (none, .compound .logical_and [c1', c2'])
            | (some r2, c2') =>
              match truthyOf r2 with
              | none => (none, .compound .logical_and [c1', c2'])
              | some b2 =>
                  (some (.vbool (b1 && b2)), .compound .logical_and [c1', c2'])
  | .compound .logical_and cs, _ => (none, .compound .logical_and cs)
  | .compound .logical_or [c1, c2], A =>
      match evalState c1 A with
      | (none, c1') => (none, .compound .logical_or [c1', c2])
      | (some r1, c1') =>
        match truthyOf r1 with
        | none => (none, .compound .logical_or [c1', c2])
        | some b1 =>
          if b1 then (some (.vbool true), .compound .logical_or [c1', c2])
          else
            match evalState c2 A with
            | (none, c2') => (none, .compound .logical_or [c1', c2'])
            | (some r2, c2') =>
              match truthyOf r2 with
              | none => (none, .compound .logical_or [c1', c2'])
              | some b2 =>
                  (some (.vbool (b1 || b2)), .compound .logical_or [c1', c2'])
  | .compound .logical_or cs, _ => (none, .compound .logical_or cs)
  | .compound op cs, A =>
      match evalStateList cs A with
      | (some rs, cs') => (applyOp op rs, .compound op cs')
      | (none, cs') => (none, .compound op cs')

/-- State-passing evaluation of the tuple of nested expressions. -/
def evalStateList : List Expr → List Val → Option (List Val) × List Expr
  | [], _ => (some [], [])
  | c :: cs, A =>
      match evalState c A, evalStateList cs A with
      | (some r, c'), (some rs, cs') => (some (r :: rs), c' :: cs')
      | (some _, c'), (none, cs') => (none, c' :: cs')
      | (none, c'), (_, cs') => (none, c' :: cs')

end

namespace print

/-- String representation of an operation tag: the
ctaeb::print::to_string specializations of print.h, plus the
specialization for CustomOperator supplied by
example/prefixed_operator.cc.  Note the trailing space in the symbol
of std::logical_not. -/
def to_string : Op → String
  | .plus => "+"
  | .minus => "-"
  | .multiplies => "*"
  | .divides => "/"
  | .equal_to => "=="
  | .not_equal_to => "!="
  | .less => "<"
  | .less_equal => "<="
  | .greater => ">"
  | .greater_equal => ">="
  | .logical_and => "&&"
  | .logical_or => "||"
  | .logical_not => "not "
  | .negate => "-"
  | .customOp => "?:"

/-- The sfinae trait ctaeb::print::prefixed: true exactly when the
operation type declares a member named prefixed.  None of the std
functional objects does; CustomOperator from
example/prefixed_operator.cc declares it as true. -/
def prefixed : Op → Bool
  | .customOp => true
  | _ => false

end print

/-- Textual form of a value when streamed: a C++ ostream prints an int
in decimal, a bool as 1 or 0 (noboolalpha default), and a std::string
as its characters. -/
def showVal : Val → String
  | .vint n => toString n
  | .vbool b => if b then "1" else "0"
  | .vstr s => s

mutual

/-- Rendering of an expression, the composition of the operator<<
overloads of print.h through a stringstream, as done by the
ctaeb::to_string helper at the bottom of print.h.  A Constant streams
its held value, a Variable streams its name.  Overload partial
ordering selects the dedicated one-child overload for compounds of
arity 1 (prefix form symbol(child), infix form symbol then child), the
dedicated two-child overload for arity 2 (prefix form over the
streamed tuple, infix form with single spaces around the symbol), and
the generic overload for every other arity (symbol, then the streamed
tuple in parentheses, regardless of the prefixed trait). -/
def to_string : Expr → String
  | .const v => showVal v
  | .var _ s => s
  | .compound op [c] =>
      if print.prefixed op then
        print.to_string op ++ "(" ++ to_string c ++ ")"
      else
        print.to_string op ++ to_string c
  | .compound op [c1, c2] =>
      if print.prefixed op then
        print.to_string op ++ "(" ++ printTuple [c1, c2] ++ ")"
      else
        to_string c1 ++ " " ++ print.to_string op ++ " " ++ to_string c2
  | .compound op cs => print.to_string op ++ "(" ++ printTuple cs ++ ")"

/-- Streaming of the tuple of nested expressions, as done by
ctaeb::print::print via emit: each element, with a comma and a space
after every element except the last. -/
def printTuple : List Expr → String
  | [] => ""
  | [c] => to_string c
  | c :: cs => to_string c ++ ", " ++ printTuple cs

end

/-- The state-passing evaluation of a common-case compound agrees with
`eval` and returns the node unchanged, given that the children do. -/
theorem evalState_eq_gen (op : Op) (cs : List Expr) (A : List Val)
    (hand : op ≠ Op.logical_and) (hor : op ≠ Op.logical_or)
    (ih : evalStateList cs A = (evalList cs A, cs)) :
    evalState (.compound op cs) A = (eval (.compound op cs) A, .compound op cs) := by
  cases op <;>
    first
      | exact absurd rfl hand
      | exact absurd rfl hor
      | (simp only [evalState, eval, ih]
         rcases h : evalList cs A with _ | rs <;> simp [h])

mutual

/-- Evaluation does not replace the expression it runs on, and the
result component of the state-passing evaluation is `eval`. -/
theorem evalState_eq : ∀ (e : Expr) (A : List Val), evalState e A = (eval e A, e)
  | .const _, _ => rfl
  | .var _ _, _ => rfl
  | .compound .logical_and [c1, c2], A => by
      have ih1 := evalState_eq c1 A
      have ih2 := evalState_eq c2 A
      simp only [evalState, eval, ih1, ih2]
      rcases h1 : eval c1 A with _ | r1
      · simp [h1]
      · rcases hb1 : truthyOf r1 with _ | b1
        · simp [h1, hb1]
        · cases b1
          · simp [h1, hb1]
          · rcases h2 : eval c2 A with _ | r2
            · simp [h1, hb1, h2]
            · rcases hb2 : truthyOf r2 with _ | b2 <;> simp [h1, hb1, h2, hb2]
  | .compound .logical_and [], _ => rfl
  | .compound .logical_and [_], _ => rfl
  | .compound .logical_and (_ :: _ :: _ :: _), _ => rfl
  | .compound .logical_or [c1, c2], A => by
      have ih1 := evalState_eq c1 A
      have ih2 := evalState_eq c2 A
      simp only [evalState, eval, ih1, ih2]
      rcases h1 : eval c1 A with _ | r1
      · simp [h1]
      · rcases hb1 : truthyOf r1 with _ | b1
        · simp [h1, hb1]
        · cases b1
          · rcases h2 : eval c2 A with _ | r2
            · simp [h1, hb1, h2]
            · rcases hb2 : truthyOf r2 with _ | b2 <;> simp [h1, hb1, h2, hb2]
          · simp [h1, hb1]
  | .compound .logical_or [], _ => rfl
  | .compound .logical_or [_], _ => rfl
  | .compound .logical_or (_ :: _ :: _ :: _), _ => rfl
  | .compound .plus cs, A =>
      evalState_eq_gen Op.plus cs A (by decide) (by decide) (evalStateList_eq cs A)
  | .compound .minus cs, A =>
      evalState_eq_gen Op.minus cs A (by decide) (by decide) (evalStateList_eq cs A)
  | .compound .multiplies cs, A =>
      evalState_eq_gen Op.multiplies cs A (by decide) (by decide) (evalStateList_eq cs A)
  | .compound .divides cs, A =>
      evalState_eq_gen Op.divides cs A (by decide) (by decide) (evalStateList_eq cs A)
  | .compound .equal_to cs, A =>
      evalState_eq_gen Op.equal_to cs A (by decide) (by decide) (evalStateList_eq cs A)
  | .compound .not_equal_to cs, A =>
      evalState_eq_gen Op.not_equal_to cs A (by decide) (by decide) (evalStateList_eq cs A)
  | .compound .less cs, A =>
      evalState_eq_gen Op.less cs A (by decide) (by decide) (evalStateList_eq cs A)
  | .compound .less_equal cs, A =>
      evalState_eq_gen Op.less_equal cs A (by decide) (by decide) (evalStateList_eq cs A)
  | .compound .greater cs, A =>
      evalState_eq_gen Op.greater cs A (by decide) (by decide) (evalStateList_eq cs A)
  | .compound .greater_equal cs, A =>
      evalState_eq_gen Op.greater_equal cs A (by decide) (by decide) (evalStateList_eq cs A)
  | .compound .logical_not cs, A =>
      evalState_eq_gen Op.logical_not cs A (by decide) (by decide) (evalStateList_eq cs A)
  | .compound .negate cs, A =>
      evalState_eq_gen Op.negate cs A (by decide) (by decide) (evalStateList_eq cs A)
  | .compound .customOp cs, A =>
      evalState_eq_gen Op.customOp cs A (by decide) (by decide) (evalStateList_eq cs A)

/-- List version of `evalState_eq`. -/
theorem evalStateList_eq : ∀ (cs : List Expr) (A : List Val),
    evalStateList cs A = (evalList cs A, cs)
  | [], _ => rfl
  | c :: cs, A => by
      have ih1 := evalState_eq c A
      have ih2 := evalStateList_eq cs A
      simp only [evalStateList, evalList, ih1, ih2]
      rcases h1 : eval c A with _ | r <;>
        rcases h2 : evalList cs A with _ | rs <;> simp [h1, h2]

end

/-- The expression of concrete scenario 5, built by the operator
overloads of operations.h as ((x + y) + (x - y)) from Variable 1
named x and Variable 2 named y: a Compound of std::plus over a
Compound of std::plus and a Compound of std::minus. -/
def exprScenario5 : Expr :=
  .compound .plus
    [.compound .plus [.var 1 "x", .var 2 "y"],
     .compound .minus [.var 1 "x", .var 2 "y"]]

/-- Claim C1, counterexample: evaluating ((x + y) + (x - y)) with
x = 10 and y = -5 does not return 10. -/
theorem scenario5_not_ten :
    eval exprScenario5 [.vint 10, .vint (-5)] ≠ some (.vint 10) := by decide

/-- Claim C1, amended: evaluating the expression built as
((x + y) + (x - y)) from Variable 1 x and Variable 2 y via the
operator overloads with arguments x = 10 and y = -5 returns 20,
since (10 + -5) + (10 - -5) = 5 + 15 = 20. -/
theorem scenario5_returns_twenty :
    eval exprScenario5 [.vint 10, .vint (-5)] = some (.vint 20) := by decide

/-- Claim C3: for every logical-AND compound node with exactly two
children and every argument list, if the first child evaluates to a
falsy value the node evaluates to false and the second child is never
evaluated (the evaluation trace is the node itself followed by the
events of the first child only); otherwise the second child is
evaluated with the same argument list and the node returns the boolean
conjunction of the two child results. -/
theorem and_short_circuit (c1 c2 : Expr) (A : List Val) (r1 : Val) (b1 : Bool)
    (h1 : eval c1 A = some r1) (hb : truthyOf r1 = some b1) :
    (b1 = false →
      eval (.compound .logical_and [c1, c2]) A = some (.vbool false) ∧
      trace (.compound .logical_and [c1, c2]) A
        = .compound .logical_and [c1, c2] :: trace c1 A) ∧
    (b1 = true → ∀ (r2 : Val) (b2 : Bool),
      eval c2 A = some r2 → truthyOf r2 = some b2 →
      eval (.compound .logical_and [c1, c2]) A = some (.vbool (b1 && b2)) ∧
      trace (.compound .logical_and [c1, c2]) A
        = .compound .logical_and [c1, c2] :: (trace c1 A ++ trace c2 A)) := by
  constructor
  · rintro rfl
    constructor
    · simp [eval, h1, hb]
    · simp [trace, h1, hb]
  · rintro rfl r2 b2 h2 hb2
    constructor
    · simp [eval, h1, hb, h2, hb2]
    · simp [trace, h1, hb, h2, hb2]

/-- Witness for and_short_circuit: the left child holds the falsy
constant 0 and the right child is a variable that cannot even be
evaluated with the empty argument list; the node nevertheless
evaluates to false, and the trace shows the right child untouched. -/
theorem and_short_circuit_witness :
    eval (.compound .logical_and [.const (.vint 0), .var 1 "x"]) [] = some (.vbool false) ∧
    trace (.compound .logical_and [.const (.vint 0), .var 1 "x"]) []
      = [.compound .logical_and [.const (.vint 0), .var 1 "x"], .const (.vint 0)] := by
  have h := (and_short_circuit (.const (.vint 0)) (.var 1 "x") []
      (.vint 0) false rfl rfl).1 rfl
  exact ⟨h.1, h.2⟩

/-- Claim C4: for every logical-OR compound node with exactly two
children and every argument list, if the first child evaluates to a
truthy value the node evaluates to true and the second child is never
evaluated (the evaluation trace is the node itself followed by the
events of the first child only); otherwise the second child is
evaluated with the same argument list and the node returns the boolean
disjunction of the two child results. -/
theorem or_short_circuit (c1 c2 : Expr) (A : List Val) (r1 : Val) (b1 : Bool)
    (h1 : eval c1 A = some r1) (hb : truthyOf r1 = some b1) :
    (b1 = true →
      eval (.compound .logical_or [c1, c2]) A = some (.vbool true) ∧
      trace (.compound .logical_or [c1, c2]) A
        = .compound .logical_or [c1, c2] :: trace c1 A) ∧
    (b1 = false → ∀ (r2 : Val) (b2 : Bool),
      eval c2 A = some r2 → truthyOf r2 = some b2 →
      eval (.compound .logical_or [c1, c2]) A = some (.vbool (b1 || b2)) ∧
      trace (.compound .logical_or [c1, c2]) A
        = .compound .logical_or [c1, c2] :: (trace c1 A ++ trace c2 A)) := by
  constructor
  · rintro rfl
    constructor
    · simp [eval, h1, hb]
    · simp [trace, h1, hb]
  · rintro rfl r2 b2 h2 hb2
    constructor
    · simp [eval, h1, hb, h2, hb2]
    · simp [trace, h1, hb, h2, hb2]

/-- Witness for or_short_circuit: the left child holds the truthy
constant 7 and the right child is a variable that cannot even be
evaluated with the empty argument list; the node nevertheless
evaluates to true, and the trace shows the right child untouched. -/
theorem or_short_circuit_witness :
    eval (.compound .logical_or [.const (.vint 7), .var 1 "x"]) [] = some (.vbool true) ∧
    trace (.compound .logical_or [.const (.vint 7), .var 1 "x"]) []
      = [.compound .logical_or [.const (.vint 7), .var 1 "x"], .const (.vint 7)] := by
  have h := (or_short_circuit (.const (.vint 7)) (.var 1 "x") []
      (.vint 7) true rfl rfl).1 rfl
  exact ⟨h.1, h.2⟩

/-- Claim C5: for every placeholder with index at least 1 and every
argument list, if the list has length at least the index, evaluating
the placeholder returns the index-th element (1-based); if the list is
shorter, the evaluation fails to build (std::get of the argument tuple
does not compile), which the embedding models as the failure result. -/
theorem variable_positional (n : Nat) (s : String) (A : List Val) (hn : 1 ≤ n) :
    (∀ hle : n ≤ A.length, eval (.var n s) A = some (A.get ⟨n - 1, by omega⟩)) ∧
    (A.length < n → eval (.var n s) A = none) := by
  have hn0 : n ≠ 0 := by omega
  constructor
  · intro hle
    simp only [eval, if_neg hn0]
    rw [List.getElem?_eq_getElem (by omega : n - 1 < A.length)]
    simp
  · intro hlt
    simp only [eval, if_neg hn0]
    exact List.getElem?_eq_none (by omega)

/-- Witness for variable_positional: the placeholder of index 2
returns the second of two arguments, and fails on a single-element
argument list. -/
theorem variable_positional_witness :
    eval (.var 2 "y") [.vint 3, .vint 7] = some (.vint 7) ∧
    eval (.var 2 "y") [.vint 3] = none := by
  constructor
  · have h := (variable_positional 2 "y" [.vint 3, .vint 7] (by decide)).1 (by decide)
    simpa using h
  · exact (variable_positional 2 "y" [.vint 3] (by decide)).2 (by decide)

/-- Claim C6: evaluating a value holder with any argument list,
including the empty one, returns the stored value unchanged. -/
theorem constant_ignores_args (v : Val) (A : List Val) :
    eval (.const v) A = some v := rfl

/-- Claim C7: a compound node with exactly two children is rendered as
symbol(child1, child2) when its operation is marked prefixed, and
otherwise as the first rendered child, a single space, the symbol, a
single space, and the second rendered child; in particular, the sum of
the variables named x and y renders as "x + y". -/
theorem print_binary_form (op : Op) (c1 c2 : Expr) :
    (to_string (.compound op [c1, c2]) =
      if print.prefixed op then
        print.to_string op ++ "(" ++ to_string c1 ++ ", " ++ to_string c2 ++ ")"
      else
        to_string c1 ++ " " ++ print.to_string op ++ " " ++ to_string c2) ∧
    to_string (.compound .plus [.var 1 "x", .var 2 "y"]) = "x + y" := by
  constructor
  · simp only [to_string, printTuple]
    cases print.prefixed op
    · simp
    · simp [String.append_assoc]
  · decide

/-- Claim C8: a compound node with exactly one child is rendered as
symbol(child) when its operation is marked prefixed, and otherwise as
the symbol immediately followed by the rendered child, with no
parentheses; in particular, unary minus over the variable named x
renders as "-x" with no separating space, and logical negation renders
with a leading "not ". -/
theorem print_unary_form (op : Op) (c : Expr) :
    (to_string (.compound op [c]) =
      if print.prefixed op then
        print.to_string op ++ "(" ++ to_string c ++ ")"
      else
        print.to_string op ++ to_string c) ∧
    to_string (.compound .negate [.var 1 "x"]) = "-x" ∧
    to_string (.compound .logical_not [.var 1 "x"]) = "not x" := by
  refine ⟨?_, by decide, by decide⟩
  simp only [to_string]

/-- Claim C9: evaluation does not mutate the expression or any hidden
state, and evaluating the same built expression twice with the same
argument list yields the same result both times: the state-passing
evaluation returns the expression unchanged, its result is the pure
result, and a second evaluation run on the expression returned by the
first is identical to the first. -/
theorem eval_repeatable (e : Expr) (A : List Val) :
    (evalState e A).2 = e ∧
    (evalState e A).1 = eval e A ∧
    evalState ((evalState e A).2) A = evalState e A := by
  have h := evalState_eq e A
  rw [h]
  exact ⟨rfl, rfl, h⟩

/-- Claim C10: evaluation of a two-child logical-AND or logical-OR
compound node only ever produces a bool value, even when the children
evaluate to non-bool truthy or falsy values such as ints -- the
short-circuit branch returns the bool literal and the other branch the
bool produced by the functional object -- whereas the default rule
returns whatever the operation produces, as the contrast of the AND
and the plus of the int constants 2 and 3 shows. -/
theorem logical_result_is_bool (c1 c2 : Expr) (A : List Val) (r : Val)
    (h : eval (.compound .logical_and [c1, c2]) A = some r ∨
         eval (.compound .logical_or [c1, c2]) A = some r) :
    (∃ b, r = .vbool b) ∧
    eval (.compound .logical_and [.const (.vint 2), .const (.vint 3)]) []
      = some (.vbool true) ∧
    eval (.compound .plus [.const (.vint 2), .const (.vint 3)]) []
      = some (.vint 5) := by
  refine ⟨?_, by decide, by decide⟩
  rcases h with h | h <;>
    · simp only [eval] at h
      repeat' split at h
      all_goals
        first
          | exact Option.noConfusion h
          | exact ⟨_, (Option.some.inj h).symm⟩

/-- Witness for logical_result_is_bool, at the AND of the int
constants 2 and 3 over the empty argument list, whose value is the
bool true. -/
theorem logical_result_is_bool_witness :
    (∃ b, Val.vbool true = Val.vbool b) ∧
    eval (.compound .logical_and [.const (.vint 2), .const (.vint 3)]) []
      = some (.vbool true) ∧
    eval (.compound .plus [.const (.vint 2), .const (.vint 3)]) []
      = some (.vint 5) :=
  logical_result_is_bool (.const (.vint 2)) (.const (.vint 3)) [] (.vbool true)
    (Or.inl rfl)

end ctaeb
